import Mathlib

/-!
# Verification of CLIProxyAPI's Claude stream-dedupe hub and tool-ID registry

Shallow embedding of:
* `internal/translator/openai/claude/tool_id_map.go` — deterministic tool-use
  ID minting (`stableToolUseID`) and the TTL-keyed minted-ID → upstream-ID
  registry (`registerToolUseIDMapping` / `resolveToolUseIDMapping`);
* `sdk/api/handlers/claude/stream_dedupe.go` — the stream dedupe hub
  (`claudeStreamHub.getOrCreate`, `pruneLocked`) and per-stream operations
  (`subscribe`, the unsubscribe closure, `broadcast`, `finish`,
  `cancelOrphaned`);
* a model of the streaming translator's tool-call handling, from the spec
  (the translator function itself is not part of the sources here).

Go machine state is made explicit: time is modelled in nanoseconds as `Nat`
(Go `time.Time` zero value becomes `0`, `time.After` becomes strict `>`),
maps become association lists, channels become explicit sink buffers, and the
mutex-serialized critical sections become pure state transformers applied in
sequence.
-/

/-! ## SHA-256 (Go `crypto/sha256`), over `Nat` with explicit mod-2^32 -/

/-- Truncate to a 32-bit word, as Go `uint32` arithmetic does implicitly. -/
def w32 (x : Nat) : Nat := x % 4294967296

/-- Rotate a 32-bit word right. -/
def rotr32 (n x : Nat) : Nat := w32 ((x >>> n) ||| (x <<< (32 - n)))

/-- SHA-256 `Ch` function: `(x AND y) XOR ((NOT x) AND z)` on 32 bits. -/
def sha256Ch (x y z : Nat) : Nat := (x &&& y) ^^^ ((x ^^^ 4294967295) &&& z)

/-- SHA-256 `Maj` function. -/
def sha256Maj (x y z : Nat) : Nat := (x &&& y) ^^^ (x &&& z) ^^^ (y &&& z)

/-- SHA-256 big sigma 0. -/
def sha256BSig0 (x : Nat) : Nat := rotr32 2 x ^^^ rotr32 13 x ^^^ rotr32 22 x

/-- SHA-256 big sigma 1. -/
def sha256BSig1 (x : Nat) : Nat := rotr32 6 x ^^^ rotr32 11 x ^^^ rotr32 25 x

/-- SHA-256 small sigma 0. -/
def sha256SSig0 (x : Nat) : Nat := rotr32 7 x ^^^ rotr32 18 x ^^^ (x >>> 3)

/-- SHA-256 small sigma 1. -/
def sha256SSig1 (x : Nat) : Nat := rotr32 17 x ^^^ rotr32 19 x ^^^ (x >>> 10)

/-- The 64 SHA-256 round constants. -/
def sha256K : List Nat :=
  [1116352408, 1899447441, 3049323471, 3921009573, 961987163,
   1508970993, 2453635748, 2870763221, 3624381080, 310598401,
   607225278, 1426881987, 1925078388, 2162078206, 2614888103,
   3248222580, 3835390401, 4022224774, 264347078, 604807628,
   770255983, 1249150122, 1555081692, 1996064986, 2554220882,
   2821834349, 2952996808, 3210313671, 3336571891, 3584528711,
   113926993, 338241895, 666307205, 773529912, 1294757372,
   1396182291, 1695183700, 1986661051, 2177026350, 2456956037,
   2730485921, 2820302411, 3259730800, 3345764771, 3516065817,
   3600352804, 4094571909, 275423344, 430227734, 506948616,
   659060556, 883997877, 958139571, 1322822218, 1537002063,
   1747873779, 1955562222, 2024104815, 2227730452, 2361852424,
   2428436474, 2756734187, 3204031479, 3329325298]

/-- The SHA-256 initial hash state. -/
def sha256H0 : List Nat :=
  [1779033703, 3144134277, 1013904242, 2773480762,
   1359893119, 2600822924, 528734635, 1541459225]

/-- Pack bytes into 32-bit big-endian words. -/
def bytesToWords : List Nat → List Nat
  | a :: b :: c :: d :: rest => (((a * 256 + b) * 256 + c) * 256 + d) :: bytesToWords rest
  | _ => []

/-- Extend the message schedule; the word list is kept most-recent-first, so
`w[i-2]`, `w[i-7]`, `w[i-15]`, `w[i-16]` are at reversed offsets 1, 6, 14, 15. -/
def sha256ExtendRev : Nat → List Nat → List Nat
  | 0, w => w
  | n + 1, w =>
    sha256ExtendRev n
      (w32 (sha256SSig1 (w.getD 1 0) + w.getD 6 0 + sha256SSig0 (w.getD 14 0) + w.getD 15 0) :: w)

/-- Full 64-word message schedule of one 64-byte block. -/
def sha256Schedule (block : List Nat) : List Nat :=
  (sha256ExtendRev 48 (bytesToWords block).reverse).reverse

/-- One SHA-256 compression round on the state `[a,b,c,d,e,f,g,h]`. -/
def sha256Round (st : List Nat) (k : Nat) (w : Nat) : List Nat :=
  match st with
  | [a, b, c, d, e, f, g, h] =>
    let t1 := w32 (h + sha256BSig1 e + sha256Ch e f g + k + w)
    let t2 := w32 (sha256BSig0 a + sha256Maj a b c)
    [w32 (t1 + t2), a, b, c, w32 (d + t1), e, f, g]
  | st => st

/-- Compress one 64-byte block into the running hash state. -/
def sha256ProcessBlock (h : List Nat) (block : List Nat) : List Nat :=
  let st := (List.zip sha256K (sha256Schedule block)).foldl
    (fun st kw => sha256Round st kw.1 kw.2) h
  List.zipWith (fun x y => w32 (x + y)) h st

/-- A `Nat` as 8 big-endian bytes (the SHA-256 length field). -/
def beBytes8 (n : Nat) : List Nat :=
  [(n >>> 56) % 256, (n >>> 48) % 256, (n >>> 40) % 256, (n >>> 32) % 256,
   (n >>> 24) % 256, (n >>> 16) % 256, (n >>> 8) % 256, n % 256]

/-- A 32-bit word as 4 big-endian bytes. -/
def beBytes4 (n : Nat) : List Nat :=
  [(n >>> 24) % 256, (n >>> 16) % 256, (n >>> 8) % 256, n % 256]

/-- SHA-256 padding: `0x80`, zeros to 56 mod 64, then the bit length. -/
def sha256Pad (msg : List Nat) : List Nat :=
  let len := msg.length
  let zeros := (64 - ((len + 9) % 64)) % 64
  msg ++ [0x80] ++ List.replicate zeros 0 ++ beBytes8 (8 * len)

/-- Split into 64-byte blocks, with fuel equal to the number of blocks. -/
def splitBlocks : Nat → List Nat → List (List Nat)
  | 0, _ => []
  | n + 1, l => l.take 64 :: splitBlocks n (l.drop 64)

/-- SHA-256 digest (32 bytes) of a byte list, as Go `sha256.Sum256`. -/
def sha256Bytes (msg : List Nat) : List Nat :=
  let padded := sha256Pad msg
  let hs := (splitBlocks (padded.length / 64) padded).foldl sha256ProcessBlock sha256H0
  (hs.map beBytes4).flatten

/-! ## Byte and string helpers (Go `[]byte(s)`, `hex.EncodeToString`) -/

/-- UTF-8 encoding of one code point, as Go string-to-`[]byte` conversion. -/
def utf8Bytes (n : Nat) : List Nat :=
  if n < 0x80 then [n]
  else if n < 0x800 then
    [0xC0 ||| (n >>> 6), 0x80 ||| (n &&& 0x3F)]
  else if n < 0x10000 then
    [0xE0 ||| (n >>> 12), 0x80 ||| ((n >>> 6) &&& 0x3F), 0x80 ||| (n &&& 0x3F)]
  else
    [0xF0 ||| (n >>> 18), 0x80 ||| ((n >>> 12) &&& 0x3F),
     0x80 ||| ((n >>> 6) &&& 0x3F), 0x80 ||| (n &&& 0x3F)]

/-- The UTF-8 bytes of a string (Go `[]byte(s)`). -/
def strBytes (s : String) : List Nat :=
  s.data.flatMap (fun c => utf8Bytes c.toNat)

/-- Lower-case hex digit of a value below 16 (Go `encoding/hex` alphabet). -/
def hexDigit (n : Nat) : Char :=
  if n < 10 then Char.ofNat (48 + n) else Char.ofNat (87 + n)

/-- Go `hex.EncodeToString` on a byte list. -/
def hexEncodeToString (bytes : List Nat) : String :=
  String.mk (bytes.flatMap (fun b => [hexDigit (b / 16), hexDigit (b % 16)]))

/-! ## `tool_id_map.go`: `stableToolUseID` -/

/-- Function `stableToolUseID` (tool_id_map.go): `"toolu_"` plus the first 24 hex
characters of the SHA-256 of `messageID ++ ":" ++ decimal index`. -/
def stableToolUseID (messageID : String) (toolIndex : Nat) : String :=
  let sum := sha256Bytes (strBytes (messageID ++ ":" ++ toString toolIndex))
  "toolu_" ++ (hexEncodeToString sum).take 24

/-! ## `tool_id_map.go`: the minted-ID → upstream-ID registry

The Go map `toolIDMapping` is an association list here; Go `time.Time` is a
`Nat` of nanoseconds and `time.After` is strict `>`. The mutex serializes the
two operations, so each is a pure function of (current time, arguments, table)
returning the updated table. -/

/-- Go `unicode.IsSpace`: the characters `strings.TrimSpace` strips. -/
def goIsSpace (c : Char) : Bool :=
  let n := c.toNat
  if n = 0x20 ∨ (0x9 ≤ n ∧ n ≤ 0xD) ∨ n = 0x85 ∨ n = 0xA0 ∨ n = 0x1680 ∨
      (0x2000 ≤ n ∧ n ≤ 0x200A) ∨ n = 0x2028 ∨ n = 0x2029 ∨ n = 0x202F ∨
      n = 0x205F ∨ n = 0x3000 then true else false

/-- Go `strings.TrimSpace`: drop leading and trailing white space. -/
def goTrimSpace (s : String) : String :=
  String.mk (((s.data.dropWhile goIsSpace).reverse.dropWhile goIsSpace).reverse)

/-- One entry of the `toolIDMapping` table (tool_id_map.go). -/
structure ToolIDMappingEntry where
  upstreamID : String
  expiresAt : Nat
deriving DecidableEq, Repr

/-- Nanoseconds per second (Go `time.Second`). -/
def nsPerSecond : Nat := 1000000000

/-- Constant `toolIDMappingTTL = 30 * time.Minute`, in nanoseconds. -/
def toolIDMappingTTL : Nat := 30 * 60 * nsPerSecond

/-- The `toolIDMapping` map, as an association list with the newest binding
for a key in front (Go map semantics: at most one binding per key is ever
observable through lookup, insert and delete). -/
abbrev ToolIDMap := List (String × ToolIDMappingEntry)

/-- Function `registerToolUseIDMapping` (tool_id_map.go): trim both arguments, do
nothing if either is empty, otherwise sweep every expired entry and insert
the mapping with a fresh `now + TTL` expiry. -/
def registerToolUseIDMapping (now : Nat) (toolUseID upstreamID : String)
    (m : ToolIDMap) : ToolIDMap :=
  let t := goTrimSpace toolUseID
  let u := goTrimSpace upstreamID
  if t = "" ∨ u = "" then m
  else
    let swept := m.filter (fun kv => decide (¬ now > kv.2.expiresAt))
    (t, ⟨u, now + toolIDMappingTTL⟩) :: swept.filter (fun kv => decide (kv.1 ≠ t))

/-- Function `resolveToolUseIDMapping` (tool_id_map.go): trim the input; not-found for
an empty key, a missing key, or an expired key (the expired entry is deleted
on access); otherwise the stored upstream id. Returns the result pair and the
updated table. -/
def resolveToolUseIDMapping (now : Nat) (toolUseID : String) (m : ToolIDMap) :
    (String × Bool) × ToolIDMap :=
  let t := goTrimSpace toolUseID
  if t = "" then (("", false), m)
  else
    match m.lookup t with
    | none => (("", false), m)
    | some entry =>
      if now > entry.expiresAt then
        (("", false), m.filter (fun kv => decide (kv.1 ≠ t)))
      else ((entry.upstreamID, true), m)

/-! ## `stream_dedupe.go`: per-stream state and operations

A `chan []byte` subscriber becomes an explicit bounded `Sink` buffer; the
non-blocking `select { case ch <- chunk: default: }` becomes a capacity test.
`context.CancelFunc` becomes a `cancelRequested` flag (true once `s.cancel()`
has been called); `orphanTimer *time.Timer` becomes the pending timer's delay.
All methods run under the stream's mutex, so they are pure state
transformers; side effects visible outside the state (which sinks received or
were closed) are returned alongside the new state. -/

/-- Constant `claudeStreamReplayMaxBytes = 8 << 20`. -/
def claudeStreamReplayMaxBytes : Nat := 8388608

/-- Constant `claudeStreamSubscriberBufSize = 256` (subscriber channel capacity). -/
def claudeStreamSubscriberBufSize : Nat := 256

/-- Constant `claudeStreamOrphanCancelAfter = 30 * time.Second`, in nanoseconds. -/
def claudeStreamOrphanCancelAfter : Nat := 30 * nsPerSecond

/-- Constant `claudeStreamCompletedCacheTTL = 5 * time.Minute`, in nanoseconds. -/
def claudeStreamCompletedCacheTTL : Nat := 5 * 60 * nsPerSecond

/-- Constant `claudeStreamPruneIntervalFloor = 30 * time.Second`, in nanoseconds. -/
def claudeStreamPruneIntervalFloor : Nat := 30 * nsPerSecond

/-- One byte chunk (`[]byte`). -/
abbrev Chunk := List Nat

/-- One subscriber channel: its identity and its buffered chunks. -/
structure Sink where
  id : Nat
  buf : List Chunk
deriving DecidableEq, Repr

/-- The `claudeStream` state (stream_dedupe.go). `id` models object identity
(two lookups return "the same stream" exactly when the ids agree). -/
structure ClaudeStream where
  id : Nat
  key : String
  createdAt : Nat
  updatedAt : Nat
  doneAt : Nat
  subscribers : List Sink
  orphanTimer : Option Nat
  replayBytes : Nat
  replay : List Chunk
  done : Bool
  cancelRequested : Bool
deriving DecidableEq, Repr

namespace ClaudeStream

/-- Method `touch`: bump `updatedAt`. -/
def touch (now : Nat) (s : ClaudeStream) : ClaudeStream :=
  { s with updatedAt := now }

/-- Method `cancelOrphaned`: invoke the stream's `cancel` function, cancelling the
upstream execution context. Also the body of the orphan timer's callback. -/
def cancelOrphaned (s : ClaudeStream) : ClaudeStream :=
  { s with cancelRequested := true }

/-- Result of `broadcast`: the new state, the sinks that received the chunk,
and the sinks that were dropped (removed and closed) for being full. -/
structure BroadcastResult where
  stream : ClaudeStream
  delivered : List Nat
  dropped : List Nat
deriving DecidableEq, Repr

/-- Method `broadcast` (stream_dedupe.go): no-op on an empty chunk or a done stream;
otherwise buffer the chunk for replay while under the 8 MiB cap (the counter
saturates at the cap once a chunk no longer fits, stopping buffering for
good), bump `updatedAt`, then non-blockingly send to every subscriber,
dropping and closing any sink already at capacity. -/
def broadcast (now : Nat) (chunk : Chunk) (s : ClaudeStream) : BroadcastResult :=
  if chunk.length = 0 then ⟨s, [], []⟩
  else if s.done then ⟨s, [], []⟩
  else
    let s1 :=
      if s.replayBytes < claudeStreamReplayMaxBytes then
        if s.replayBytes + chunk.length ≤ claudeStreamReplayMaxBytes then
          { s with replay := s.replay ++ [chunk],
                   replayBytes := s.replayBytes + chunk.length }
        else
          { s with replayBytes := claudeStreamReplayMaxBytes }
      else s
    let s2 := { s1 with updatedAt := now }
    ⟨{ s2 with
        subscribers := s2.subscribers.filterMap (fun sk =>
          if sk.buf.length < claudeStreamSubscriberBufSize then
            some { sk with buf := sk.buf ++ [chunk] }
          else none) },
      (s2.subscribers.filter
        (fun sk => decide (sk.buf.length < claudeStreamSubscriberBufSize))).map Sink.id,
      (s2.subscribers.filter
        (fun sk => decide (¬ sk.buf.length < claudeStreamSubscriberBufSize))).map Sink.id⟩

/-- The unsubscribe closure a subscriber holds: either the real closure over
its sink (live subscription) or the `func() {}` returned when the stream was
already done. -/
inductive UnsubHandle where
  | noop
  | sink (id : Nat)
deriving DecidableEq, Repr

/-- Result of `subscribe`: the replay copy, the new sink's identity, whether
that sink was closed immediately, the unsubscribe handle, and the new state. -/
structure SubscribeResult where
  replay : List Chunk
  sinkId : Nat
  sinkClosed : Bool
  unsub : UnsubHandle
  stream : ClaudeStream
deriving DecidableEq, Repr

/-- Method `subscribe` (stream_dedupe.go): copy the replay buffer, bump `updatedAt`,
stop any pending orphan timer; if the stream is done, close the fresh sink at
once and hand back the no-op unsubscribe, otherwise attach the sink.
`newSinkId` stands for the freshly allocated channel. -/
def subscribe (now newSinkId : Nat) (s : ClaudeStream) : SubscribeResult :=
  let rep := s.replay
  let s1 := { s with updatedAt := now, orphanTimer := none }
  if s.done then
    ⟨rep, newSinkId, true, .noop, s1⟩
  else
    ⟨rep, newSinkId, false, .sink newSinkId,
      { s1 with subscribers := s1.subscribers ++ [⟨newSinkId, []⟩] }⟩

/-- The body of the unsubscribe closure (stream_dedupe.go): remove and close
the sink if still attached; if the stream is not done, no subscriber remains
and no orphan timer is pending, arm the 30-second orphan timer. -/
def unsubscribeSink (sinkId : Nat) (s : ClaudeStream) : ClaudeStream :=
  let s1 :=
    if s.subscribers.any (fun sk => sk.id == sinkId) then
      { s with subscribers := s.subscribers.filter (fun sk => sk.id != sinkId) }
    else s
  if ¬ s1.done = true ∧ s1.subscribers.length = 0 ∧ s1.orphanTimer = none then
    { s1 with orphanTimer := some claudeStreamOrphanCancelAfter }
  else s1

/-- Run an unsubscribe handle: the done-case handle does nothing. -/
def runUnsub : UnsubHandle → ClaudeStream → ClaudeStream
  | .noop, s => s
  | .sink sid, s => s.unsubscribeSink sid

/-- Result of `finish`: the new state and the sinks that were closed. -/
structure FinishResult where
  stream : ClaudeStream
  closed : List Nat
deriving DecidableEq, Repr

/-- Method `finish` (stream_dedupe.go): idempotent terminal transition — set `done`,
record `doneAt`, close and remove every subscriber, stop the orphan timer. -/
def finish (now : Nat) (s : ClaudeStream) : FinishResult :=
  if s.done then ⟨s, []⟩
  else
    ⟨{ s with done := true, doneAt := now, subscribers := [], orphanTimer := none },
      s.subscribers.map Sink.id⟩

end ClaudeStream

/-! ## `stream_dedupe.go`: the hub -/

/-- The `claudeStreamHub` state: the key → stream table (association list, at
most one binding per key), the last-prune timestamp (`0` is Go's zero time),
a counter allocating stream identities, and the log of keys whose starter
function has been invoked (`s.start(starter, …)` runs the starter exactly
once per constructed stream). -/
structure ClaudeStreamHub where
  streams : List (String × ClaudeStream)
  lastPruneAt : Nat
  nextStreamId : Nat
  starterCalls : List String
deriving DecidableEq, Repr

/-- Constructor `newClaudeStreamHub`: empty table, zero prune time. -/
def newClaudeStreamHub : ClaudeStreamHub :=
  { streams := [], lastPruneAt := 0, nextStreamId := 0, starterCalls := [] }

/-- One entry's fate under `pruneLocked`: a running stream is kept (and
force-cancelled once it is more than `2 * TTL` past creation); a done stream
with a non-zero completion time more than `TTL` old is deleted. -/
def pruneStreamEntry (now : Nat) (e : String × ClaudeStream) :
    Option (String × ClaudeStream) :=
  if ¬ e.2.done = true then
    if now - e.2.createdAt > claudeStreamCompletedCacheTTL * 2 then
      some (e.1, e.2.cancelOrphaned)
    else some e
  else if ¬ e.2.doneAt = 0 ∧ now - e.2.doneAt > claudeStreamCompletedCacheTTL then none
  else some e

/-- Method `pruneLocked` (stream_dedupe.go): runs at most once per
`claudeStreamPruneIntervalFloor`; sweeps every entry via `pruneStreamEntry`. -/
def ClaudeStreamHub.pruneLocked (now : Nat) (h : ClaudeStreamHub) : ClaudeStreamHub :=
  if ¬ h.lastPruneAt = 0 ∧ now - h.lastPruneAt < claudeStreamPruneIntervalFloor then h
  else
    { h with lastPruneAt := now, streams := h.streams.filterMap (pruneStreamEntry now) }

/-- Method `getOrCreate` (stream_dedupe.go): under the hub lock, prune, then either
return the existing stream for the key (touching `updatedAt`) or construct a
fresh stream, store it, and start it — which invokes the starter once. -/
def ClaudeStreamHub.getOrCreate (now : Nat) (key : String) (h : ClaudeStreamHub) :
    ClaudeStream × ClaudeStreamHub :=
  let h1 := h.pruneLocked now
  match h1.streams.lookup key with
  | some s =>
    let s1 := s.touch now
    (s1, { h1 with streams := (key, s1) :: h1.streams.filter (fun kv => kv.1 != key) })
  | none =>
    let s : ClaudeStream :=
      { id := h1.nextStreamId, key := key, createdAt := now, updatedAt := now,
        doneAt := 0, subscribers := [], orphanTimer := none, replayBytes := 0,
        replay := [], done := false, cancelRequested := false }
    (s, { h1 with
        streams := (key, s) :: h1.streams,
        nextStreamId := h1.nextStreamId + 1,
        starterCalls := h1.starterCalls ++ [key] })

/-- Run a sequence of `getOrCreate` calls, each given as (time, key). -/
def ClaudeStreamHub.runGetOrCreates (calls : List (Nat × String))
    (h : ClaudeStreamHub) : ClaudeStreamHub :=
  calls.foldl (fun h c => (ClaudeStreamHub.getOrCreate c.1 c.2 h).2) h

/-! ## Streaming translator: per-stream tool-call handling (modelled)

`ConvertOpenAIResponseToClaude` is exercised by the tests in the sources but
its body is not among them; the tool-call branch it applies per inbound frame
is modelled here from the spec. -/

/-- Kind of a content block (spec §3 `StreamTranslationState`). -/
inductive BlockKind where
  | text
  | toolUse
deriving DecidableEq, Repr

/-- Per-index block descriptor (spec §3): `{kind, started, closed,
lastEmittedText, argumentBuffer}`. -/
structure BlockState where
  kind : BlockKind
  started : Bool
  closed : Bool
  lastEmittedText : String
  argumentBuffer : String
deriving DecidableEq, Repr

/-- State `StreamTranslationState` (spec §3): the ordered index → descriptor
mapping and the finish-reason flag. -/
structure StreamTranslationState where
  blocks : List (Nat × BlockState)
  finishSeen : Bool
deriving DecidableEq, Repr

/-- An outbound Claude SSE event relevant to tool-call translation. -/
inductive ClaudeEvent where
  | contentBlockStartToolUse (index : Nat) (toolUseId name : String)
  | inputJsonDelta (index : Nat) (fragment : String)
deriving DecidableEq, Repr

/-- Modelled from the spec: the tool-call branch of
`ConvertOpenAIResponseToClaude` (spec §4.2), whose body is absent from the
sources here. A tool-call delta fragment carrying an index not yet seen,
together with a name and an upstream id, triggers a `content_block_start` of
kind `tool_use` whose id is `stableToolUseID seed index`; fragments for an
already-started index are only appended to that index's argument buffer and
forwarded as an incremental argument-delta event, never a second start. On a
start the registry records `register(mintedID, upstreamID)` so the reverse
direction can later recover the upstream id. -/
def applyToolCallDelta (now : Nat) (seed : String) (index : Nat)
    (upstreamID name args : String) (st : StreamTranslationState)
    (tbl : ToolIDMap) : StreamTranslationState × List ClaudeEvent × ToolIDMap :=
  match st.blocks.lookup index with
  | some b =>
    ({ st with blocks := (index, { b with argumentBuffer := b.argumentBuffer ++ args }) ::
        st.blocks.filter (fun kv => kv.1 != index) },
     (if args = "" then [] else [.inputJsonDelta index args]), tbl)
  | none =>
    let minted := stableToolUseID seed index
    ({ st with blocks := (index,
        { kind := .toolUse, started := true, closed := false,
          lastEmittedText := "", argumentBuffer := args }) :: st.blocks },
     .contentBlockStartToolUse index minted name ::
       (if args = "" then [] else [.inputJsonDelta index args]),
     registerToolUseIDMapping now minted upstreamID tbl)

/-- Count the tool-use `content_block_start` events in an output sequence. -/
def countToolUseStarts (evs : List ClaudeEvent) : Nat :=
  (evs.filter (fun e =>
    match e with
    | .contentBlockStartToolUse .. => true
    | _ => false)).length

/-! ## Derived definitions used by the statements -/

/-- Total byte size of a replay buffer (sum of chunk lengths). -/
def replaySize (l : List Chunk) : Nat := (l.map List.length).sum

/-- The replay-buffer accounting invariant: the buffered bytes are counted by
`replayBytes`, which never exceeds the 8 MiB cap. Holds of a freshly created
stream and is preserved by `broadcast`. -/
def StreamBufInv (s : ClaudeStream) : Prop :=
  replaySize s.replay ≤ s.replayBytes ∧
    s.replayBytes ≤ claudeStreamReplayMaxBytes

instance (s : ClaudeStream) : Decidable (StreamBufInv s) := by
  unfold StreamBufInv; infer_instance

/-- Apply a sequence of `broadcast` calls, each given as (time, chunk). -/
def applyBroadcasts (ops : List (Nat × Chunk)) (s : ClaudeStream) : ClaudeStream :=
  ops.foldl (fun s op => (ClaudeStream.broadcast op.1 op.2 s).stream) s

/-- A concrete live stream with one empty subscriber sink and two buffered
replay bytes, used by the witnesses. -/
def streamA : ClaudeStream :=
  { id := 0, key := "k", createdAt := 0, updatedAt := 0, doneAt := 0,
    subscribers := [⟨1, []⟩], orphanTimer := none, replayBytes := 2,
    replay := [[1, 2]], done := false, cancelRequested := false }

/-- A concrete completed stream, used by the witnesses. -/
def streamDone : ClaudeStream :=
  { streamA with done := true, doneAt := 5, subscribers := [] }

/-- A concrete live stream with one empty sink and one sink already at the
256-chunk channel capacity, used by the witnesses. -/
def streamB : ClaudeStream :=
  { streamA with subscribers := [⟨1, []⟩, ⟨2, List.replicate 256 [9]⟩] }

/-! ## Test vectors anchoring the SHA-256 embedding -/

set_option maxRecDepth 200000 in
/-- FIPS 180-4 test vector: the embedding digests `"abc"` to the published
value. -/
theorem sha256Bytes_vector_abc :
    hexEncodeToString (sha256Bytes (strBytes "abc")) =
      "ba7816bf8f01cfea414140de5dae2223b00361a396177a9cb410ff61f20015ad" := by
  decide

set_option maxRecDepth 200000 in
/-- Two-block test vector (70 bytes), exercising padding and the block
loop. -/
theorem sha256Bytes_vector_two_blocks :
    hexEncodeToString (sha256Bytes (strBytes
        "aaaaaaaaaaaaaaaaaaaaaaaaaaaaaaaaaaaaaaaaaaaaaaaaaaaaaaaaaaaaaaaaaaaaaa")) =
      "6bd5e5034855a11241f0dee8fc72850ffd9955b28347a86428b5fa19119f6ad0" := by
  decide

/-! ## Theorems: `stableToolUseID` (C2) -/

/-- C2. `stableToolUseID` is a pure deterministic function of
`(seed, index)`: identical pairs give the identical id; the id is the fixed
prefix `"toolu_"` followed by the first 24 hex characters of the SHA-256 of
`seed ++ ":" ++ decimal index`; and two ids can only coincide when the
truncated hashes coincide (distinct pairs yield distinct ids up to hash
collision). -/
theorem stableToolUseID_pure_structure :
    (∀ s i, stableToolUseID s i = stableToolUseID s i) ∧
    (∀ s i, stableToolUseID s i =
      "toolu_" ++
        (hexEncodeToString (sha256Bytes (strBytes (s ++ ":" ++ toString i)))).take 24) ∧
    (∀ s i t j,
      stableToolUseID s i = stableToolUseID t j →
      (hexEncodeToString (sha256Bytes (strBytes (s ++ ":" ++ toString i)))).take 24 =
        (hexEncodeToString (sha256Bytes (strBytes (t ++ ":" ++ toString j)))).take 24) := by
  refine ⟨fun s i => rfl, fun s i => rfl, fun s i t j h => ?_⟩
  have hd := congrArg String.data h
  simp only [stableToolUseID, String.data_append] at hd
  exact String.ext (List.append_cancel_left hd)

/-- Witness for C2 at a concrete input: two equal `(seed, index)` pairs, the
collision-direction hypothesis discharged by `rfl`. -/
theorem stableToolUseID_pure_structure_witness :
    (hexEncodeToString (sha256Bytes (strBytes ("chat" ++ ":" ++ toString 0)))).take 24 =
      (hexEncodeToString (sha256Bytes (strBytes ("chat" ++ ":" ++ toString 0)))).take 24 :=
  stableToolUseID_pure_structure.2.2 "chat" 0 "chat" 0 rfl

/-! ## Theorems: registry round-trip and not-found behaviour (C3, C8) -/

/-- C3, counterexample. As literally stated the round-trip claim fails
when the upstream id carries surrounding whitespace: both trimmed forms are
non-empty, yet `resolve` returns the *trimmed* upstream id `"u"`, not the
registered literal `" u "`, because `register` stores the trimmed form. -/
theorem resolve_after_register_literal_cex :
    goTrimSpace " m " ≠ "" ∧ goTrimSpace " u " ≠ "" ∧
    (resolveToolUseIDMapping 0 " m "
        (registerToolUseIDMapping 0 " m " " u " [])).1 ≠ (" u ", true) := by
  decide

/-- C3, amended. For every `mintedID` and `upstreamID` whose trimmed
forms are non-empty, `register` followed by `resolve` of the minted id at any
time not after the 30-minute expiry returns `(trimmed upstreamID, true)` — in
particular the literal upstream id whenever it carries no surrounding
whitespace. -/
theorem resolve_after_register (now later : Nat) (mintedID upstreamID : String)
    (tbl : ToolIDMap)
    (hm : goTrimSpace mintedID ≠ "") (hu : goTrimSpace upstreamID ≠ "")
    (hexp : later ≤ now + toolIDMappingTTL) :
    (resolveToolUseIDMapping later mintedID
        (registerToolUseIDMapping now mintedID upstreamID tbl)).1 =
      (goTrimSpace upstreamID, true) := by
  have hreg : registerToolUseIDMapping now mintedID upstreamID tbl =
      (goTrimSpace mintedID,
        ⟨goTrimSpace upstreamID, now + toolIDMappingTTL⟩) ::
        ((tbl.filter (fun kv => decide (¬ now > kv.2.expiresAt))).filter
          (fun kv => decide (kv.1 ≠ goTrimSpace mintedID))) := by
    simp [registerToolUseIDMapping, hm, hu]
  rw [hreg]
  simp [resolveToolUseIDMapping, hm, List.lookup]
  rw [if_neg (by omega)]

/-- Witness for C3 at a concrete input: register `"a" ↦ "b"` at time 0 and
resolve five nanoseconds later. -/
theorem resolve_after_register_witness :
    (resolveToolUseIDMapping 5 "a" (registerToolUseIDMapping 0 "a" "b" [])).1 =
      (goTrimSpace "b", true) :=
  resolve_after_register 0 5 "a" "b" [] (by decide) (by decide) (by decide)

/-- C8. `resolve` returns `("", false)` for an input whose trimmed form is
empty, for a key absent from the table, and for an expired key; in the
expired case the entry is deleted from the table as a side effect. -/
theorem resolve_notFound_cases (now : Nat) (mintedID : String) (tbl : ToolIDMap) :
    (goTrimSpace mintedID = "" →
      resolveToolUseIDMapping now mintedID tbl = (("", false), tbl)) ∧
    (tbl.lookup (goTrimSpace mintedID) = none →
      resolveToolUseIDMapping now mintedID tbl = (("", false), tbl)) ∧
    (∀ e, goTrimSpace mintedID ≠ "" →
      tbl.lookup (goTrimSpace mintedID) = some e → now > e.expiresAt →
      resolveToolUseIDMapping now mintedID tbl =
        (("", false),
          tbl.filter (fun kv => decide (kv.1 ≠ goTrimSpace mintedID)))) := by
  refine ⟨fun he => ?_, fun hl => ?_, fun e hm hl hexp => ?_⟩
  · simp [resolveToolUseIDMapping, he]
  · by_cases he : goTrimSpace mintedID = ""
    · simp [resolveToolUseIDMapping, he]
    · simp [resolveToolUseIDMapping, he, hl]
  · simp [resolveToolUseIDMapping, hm, hl, hexp]

/-- Witness for C8: the three not-found cases at concrete inputs — an
all-whitespace id, a missing key, and a key whose entry expired at time 3
looked up at time 10 (and is deleted). -/
theorem resolve_notFound_cases_witness :
    resolveToolUseIDMapping 0 " " [] = (("", false), []) ∧
    resolveToolUseIDMapping 0 "x" [] = (("", false), []) ∧
    resolveToolUseIDMapping 10 "x" [("x", ⟨"u", 3⟩)] = (("", false), []) := by
  refine ⟨(resolve_notFound_cases 0 " " []).1 (by decide),
          (resolve_notFound_cases 0 "x" []).2.1 (by decide), ?_⟩
  have h := (resolve_notFound_cases 10 "x" [("x", ⟨"u", 3⟩)]).2.2 ⟨"u", 3⟩
    (by decide) (by decide) (by decide)
  simpa using h

/-! ## Theorems: `broadcast` (C10, C4, C7) -/

/-- C10. `broadcast` is a complete no-op when the chunk is empty or the
stream is already done: the state (replay buffer, byte total, subscriber set,
`updatedAt`) is returned unchanged and nothing is delivered to or dropped
from any sink. -/
theorem broadcast_noop_empty_or_done (now : Nat) (chunk : Chunk) (s : ClaudeStream)
    (h : chunk = [] ∨ s.done = true) :
    ClaudeStream.broadcast now chunk s = ⟨s, [], []⟩ := by
  rcases h with h | h
  · simp [ClaudeStream.broadcast, h]
  · by_cases hc : chunk.length = 0 <;> simp [ClaudeStream.broadcast, hc, h]

/-- Witness for C10: an empty chunk on a live stream and a non-empty chunk on
a completed stream, both at concrete states. -/
theorem broadcast_noop_empty_or_done_witness :
    ClaudeStream.broadcast 7 [] streamA = ⟨streamA, [], []⟩ ∧
    ClaudeStream.broadcast 7 [3] streamDone = ⟨streamDone, [], []⟩ :=
  ⟨broadcast_noop_empty_or_done 7 [] streamA (Or.inl rfl),
   broadcast_noop_empty_or_done 7 [3] streamDone (Or.inr rfl)⟩

/-- Measure `replaySize` distributes over appending one chunk. -/
theorem replaySize_append_chunk (l : List Chunk) (c : Chunk) :
    replaySize (l ++ [c]) = replaySize l + c.length := by
  simp [replaySize]

/-- Method `broadcast` preserves the replay-buffer accounting invariant. -/
theorem stream_bufInv_broadcast (now : Nat) (chunk : Chunk) (s : ClaudeStream)
    (h : StreamBufInv s) : StreamBufInv (ClaudeStream.broadcast now chunk s).stream := by
  obtain ⟨ha, hb⟩ := h
  unfold ClaudeStream.broadcast
  split
  · exact ⟨ha, hb⟩
  · split
    · exact ⟨ha, hb⟩
    · dsimp only
      constructor <;>
        · split
          · split
            · simp [replaySize_append_chunk] <;> omega
            · simp <;> omega
          · simp <;> omega

/-- Any sequence of `broadcast` calls preserves the accounting invariant. -/
theorem stream_bufInv_applyBroadcasts (ops : List (Nat × Chunk)) (s : ClaudeStream)
    (h : StreamBufInv s) : StreamBufInv (applyBroadcasts ops s) := by
  induction ops generalizing s with
  | nil => exact h
  | cons op rest ih => exact ih _ (stream_bufInv_broadcast op.1 op.2 s h)

/-- C4. The replay buffer is bounded by the 8 MiB cap after any sequence
of broadcasts from a state satisfying the accounting invariant (as the
freshly created stream does); a non-empty chunk that still fits under the cap
is appended; once `replayBytes` has reached the cap the buffer never changes
again; and no broadcast ever evicts a buffered chunk (the old buffer is a
prefix of the new one). -/
theorem broadcast_replay_cap (now : Nat) (chunk : Chunk) (s : ClaudeStream) :
    (∀ n k, StreamBufInv (ClaudeStreamHub.getOrCreate n k newClaudeStreamHub).1) ∧
    (StreamBufInv s → ∀ ops,
      replaySize (applyBroadcasts ops s).replay ≤ claudeStreamReplayMaxBytes) ∧
    (s.done = false → chunk.length ≠ 0 →
      s.replayBytes + chunk.length ≤ claudeStreamReplayMaxBytes →
      (ClaudeStream.broadcast now chunk s).stream.replay = s.replay ++ [chunk]) ∧
    (s.replayBytes = claudeStreamReplayMaxBytes →
      (ClaudeStream.broadcast now chunk s).stream.replay = s.replay ∧
      (ClaudeStream.broadcast now chunk s).stream.replayBytes =
        claudeStreamReplayMaxBytes) ∧
    (∃ t, (ClaudeStream.broadcast now chunk s).stream.replay = s.replay ++ t) := by
  refine ⟨?_, ?_, ?_, ?_, ?_⟩
  · intro n k
    simp [ClaudeStreamHub.getOrCreate, ClaudeStreamHub.pruneLocked,
      newClaudeStreamHub, StreamBufInv, replaySize]
  · intro h ops
    exact (stream_bufInv_applyBroadcasts ops s h).1.trans
      (stream_bufInv_applyBroadcasts ops s h).2
  · intro hd hc hfit
    have hlt : s.replayBytes < claudeStreamReplayMaxBytes := by omega
    simp [ClaudeStream.broadcast, hc, hd, hlt, hfit]
  · intro hmax
    have hlt : ¬ s.replayBytes < claudeStreamReplayMaxBytes := by omega
    unfold ClaudeStream.broadcast
    split
    · exact ⟨rfl, hmax⟩
    split
    · exact ⟨rfl, hmax⟩
    simp [hlt, hmax]
  · unfold ClaudeStream.broadcast
    split
    · exact ⟨[], by simp⟩
    split
    · exact ⟨[], by simp⟩
    dsimp only
    split
    · split
      · exact ⟨[chunk], rfl⟩
      · exact ⟨[], by simp⟩
    · exact ⟨[], by simp⟩

/-- Witness for C4 at concrete inputs: the created stream's invariant, a
two-broadcast sequence staying under the cap, an in-cap append, and the
cap-saturated permanence on a stream whose counter sits at the cap. -/
theorem broadcast_replay_cap_witness :
    StreamBufInv (ClaudeStreamHub.getOrCreate 0 "k" newClaudeStreamHub).1 ∧
    replaySize (applyBroadcasts [(1, [5]), (2, [6, 7])] streamA).replay ≤
      claudeStreamReplayMaxBytes ∧
    (ClaudeStream.broadcast 3 [7] streamA).stream.replay = streamA.replay ++ [[7]] ∧
    (ClaudeStream.broadcast 3 [7]
        { streamA with replayBytes := claudeStreamReplayMaxBytes }).stream.replay =
      streamA.replay :=
  ⟨(broadcast_replay_cap 0 [] streamA).1 0 "k",
   (broadcast_replay_cap 0 [] streamA).2.1 (by decide) [(1, [5]), (2, [6, 7])],
   (broadcast_replay_cap 3 [7] streamA).2.2.1 rfl (by decide) (by decide),
   ((broadcast_replay_cap 3 [7]
      { streamA with replayBytes := claudeStreamReplayMaxBytes }).2.2.2.1 rfl).1⟩

/-! ## Theorems: `subscribe` and the unsubscribe closure (C5, C6) -/

/-- C5. `subscribe` always returns the full current replay buffer and
clears any pending orphan-cancel timer; when the stream is already done, the
fresh sink is closed immediately, it is never attached to the subscriber set
(so it can never receive a live chunk), and the returned unsubscribe handle
is the no-op closure. -/
theorem subscribe_replay_timer_done (now sid : Nat) (s : ClaudeStream) :
    (ClaudeStream.subscribe now sid s).replay = s.replay ∧
    (ClaudeStream.subscribe now sid s).stream.orphanTimer = none ∧
    (s.done = true →
      (ClaudeStream.subscribe now sid s).sinkClosed = true ∧
      (ClaudeStream.subscribe now sid s).unsub = .noop ∧
      (∀ s₂, ClaudeStream.runUnsub (ClaudeStream.subscribe now sid s).unsub s₂ = s₂) ∧
      (ClaudeStream.subscribe now sid s).stream.subscribers = s.subscribers) := by
  by_cases h : s.done = true <;>
    simp [ClaudeStream.subscribe, ClaudeStream.runUnsub, h]

/-- Witness for C5 on the concrete completed stream: the replay comes back
whole, the sink is closed at once, and the unsubscribe handle does nothing. -/
theorem subscribe_replay_timer_done_witness :
    (ClaudeStream.subscribe 9 3 streamDone).replay = streamDone.replay ∧
    (ClaudeStream.subscribe 9 3 streamDone).sinkClosed = true ∧
    ClaudeStream.runUnsub (ClaudeStream.subscribe 9 3 streamDone).unsub streamA = streamA :=
  ⟨(subscribe_replay_timer_done 9 3 streamDone).1,
   ((subscribe_replay_timer_done 9 3 streamDone).2.2 rfl).1,
   ((subscribe_replay_timer_done 9 3 streamDone).2.2 rfl).2.2.1 streamA⟩

/-- C6. Unsubscribing the last sink of a live stream with no pending
timer arms the 30-second orphan timer, whose callback (`cancelOrphaned`)
cancels the upstream execution context; no timer is armed when the stream is
done, when other sinks remain attached, or when a timer is already pending. -/
theorem unsubscribe_orphan_timer (sid : Nat) (s : ClaudeStream) :
    (s.done = false → s.orphanTimer = none →
      s.subscribers.filter (fun sk => sk.id != sid) = [] →
      (ClaudeStream.unsubscribeSink sid s).orphanTimer =
          some claudeStreamOrphanCancelAfter ∧
        claudeStreamOrphanCancelAfter = 30 * nsPerSecond ∧
        (ClaudeStream.cancelOrphaned
          (ClaudeStream.unsubscribeSink sid s)).cancelRequested = true) ∧
    (s.done = true →
      (ClaudeStream.unsubscribeSink sid s).orphanTimer = s.orphanTimer) ∧
    (s.subscribers.filter (fun sk => sk.id != sid) ≠ [] →
      (ClaudeStream.unsubscribeSink sid s).orphanTimer = s.orphanTimer) ∧
    (∀ d, s.orphanTimer = some d →
      (ClaudeStream.unsubscribeSink sid s).orphanTimer = some d) := by
  have h30 : claudeStreamOrphanCancelAfter = 30 * nsPerSecond := rfl
  refine ⟨fun hd ht hf => ?_, fun hd => ?_, fun hf => ?_, fun d hd => ?_⟩
  · by_cases ha : s.subscribers.any (fun sk => sk.id == sid)
    · simp [ClaudeStream.unsubscribeSink, ha, hd, ht, hf, h30,
        ClaudeStream.cancelOrphaned]
    · have hkeep : List.filter (fun sk => sk.id != sid) s.subscribers =
          s.subscribers := by
        apply List.filter_eq_self.mpr
        intro a hmem
        have h2 : ¬ (a.id == sid) = true := fun hpk =>
          ha (List.any_eq_true.mpr ⟨a, hmem, hpk⟩)
        simp only [Bool.not_eq_true] at h2
        simp [bne, h2]
      rw [hkeep] at hf
      simp [ClaudeStream.unsubscribeSink, ha, hd, ht, hf, h30,
        ClaudeStream.cancelOrphaned]
  · by_cases ha : s.subscribers.any (fun sk => sk.id == sid) <;>
      simp [ClaudeStream.unsubscribeSink, ha, hd]
  · by_cases ha : s.subscribers.any (fun sk => sk.id == sid)
    · simp [ClaudeStream.unsubscribeSink, ha, hf]
    · have hne : s.subscribers ≠ [] := by
        intro h0
        exact hf (by simp [h0])
      simp [ClaudeStream.unsubscribeSink, ha, hne]
  · by_cases ha : s.subscribers.any (fun sk => sk.id == sid) <;>
      simp [ClaudeStream.unsubscribeSink, ha, hd]

/-- Witness for C6 at concrete states: removing the only sink of the live
stream arms the 30 s timer and firing cancels; unsubscribing on the done
stream and on a stream with a pending timer leaves the timer field alone. -/
theorem unsubscribe_orphan_timer_witness :
    ((ClaudeStream.unsubscribeSink 1 streamA).orphanTimer =
        some claudeStreamOrphanCancelAfter ∧
      claudeStreamOrphanCancelAfter = 30 * nsPerSecond ∧
      (ClaudeStream.cancelOrphaned
        (ClaudeStream.unsubscribeSink 1 streamA)).cancelRequested = true) ∧
    (ClaudeStream.unsubscribeSink 4 streamDone).orphanTimer = streamDone.orphanTimer ∧
    (ClaudeStream.unsubscribeSink 9 { streamA with orphanTimer := some 5 }).orphanTimer =
      some 5 :=
  ⟨(unsubscribe_orphan_timer 1 streamA).1 rfl rfl (by decide),
   (unsubscribe_orphan_timer 4 streamDone).2.1 rfl,
   (unsubscribe_orphan_timer 9 { streamA with orphanTimer := some 5 }).2.2.2 5 rfl⟩

/-- A `filterMap` with a guarded `some` is a `filter` followed by a `map`. -/
theorem filterMap_guard_eq_filter_map {α β : Type} (p : α → Prop) [DecidablePred p]
    (f : α → β) (l : List α) :
    l.filterMap (fun x => if p x then some (f x) else none) =
      (l.filter (fun x => decide (p x))).map f := by
  induction l with
  | nil => rfl
  | cons a t ih =>
    by_cases h : p a <;> simp [List.filterMap_cons, List.filter_cons, h, ih]

/-- C7. During a live, non-empty broadcast the surviving subscriber set
is exactly the sinks that had room, each extended with the chunk; every full
sink is dropped and closed; and every sink with room receives the chunk —
dropping a saturated subscriber never stalls delivery to the others. -/
theorem broadcast_drops_slow_subscriber (now : Nat) (chunk : Chunk) (s : ClaudeStream)
    (hc : chunk.length ≠ 0) (hd : s.done = false) :
    ((ClaudeStream.broadcast now chunk s).stream.subscribers =
      (s.subscribers.filter
        (fun sk => decide (sk.buf.length < claudeStreamSubscriberBufSize))).map
        (fun sk => { sk with buf := sk.buf ++ [chunk] })) ∧
    ((ClaudeStream.broadcast now chunk s).dropped =
      (s.subscribers.filter
        (fun sk => decide (¬ sk.buf.length < claudeStreamSubscriberBufSize))).map
        Sink.id) ∧
    (∀ sk ∈ s.subscribers, sk.buf.length < claudeStreamSubscriberBufSize →
      sk.id ∈ (ClaudeStream.broadcast now chunk s).delivered ∧
      { sk with buf := sk.buf ++ [chunk] } ∈
        (ClaudeStream.broadcast now chunk s).stream.subscribers) ∧
    (∀ sk ∈ s.subscribers, ¬ sk.buf.length < claudeStreamSubscriberBufSize →
      sk.id ∈ (ClaudeStream.broadcast now chunk s).dropped) := by
  have hsubs : (ClaudeStream.broadcast now chunk s).stream.subscribers =
      s.subscribers.filterMap (fun sk =>
        if sk.buf.length < claudeStreamSubscriberBufSize then
          some { sk with buf := sk.buf ++ [chunk] }
        else none) := by
    unfold ClaudeStream.broadcast
    split
    · omega
    split
    · simp_all
    dsimp only
    split
    · split <;> rfl
    · rfl
  have hdel : (ClaudeStream.broadcast now chunk s).delivered =
      (s.subscribers.filter
        (fun sk => decide (sk.buf.length < claudeStreamSubscriberBufSize))).map
        Sink.id := by
    unfold ClaudeStream.broadcast
    split
    · omega
    split
    · simp_all
    dsimp only
    split
    · split <;> rfl
    · rfl
  have hdrop : (ClaudeStream.broadcast now chunk s).dropped =
      (s.subscribers.filter
        (fun sk => decide (¬ sk.buf.length < claudeStreamSubscriberBufSize))).map
        Sink.id := by
    unfold ClaudeStream.broadcast
    split
    · omega
    split
    · simp_all
    dsimp only
    split
    · split <;> rfl
    · rfl
  refine ⟨?_, hdrop, fun sk hm hroom => ⟨?_, ?_⟩, fun sk hm hfull => ?_⟩
  · rw [hsubs, filterMap_guard_eq_filter_map]
  · rw [hdel]
    exact List.mem_map_of_mem _ (List.mem_filter.mpr ⟨hm, by simpa using hroom⟩)
  · rw [hsubs, filterMap_guard_eq_filter_map]
    exact List.mem_map_of_mem _ (List.mem_filter.mpr ⟨hm, by simpa using hroom⟩)
  · rw [hdrop]
    exact List.mem_map_of_mem _ (List.mem_filter.mpr ⟨hm, by simpa using hfull⟩)

set_option maxRecDepth 40000 in
/-- Witness for C7 on the concrete two-sink stream: the empty sink gets the
chunk, the saturated sink is dropped. -/
theorem broadcast_drops_slow_subscriber_witness :
    (1 ∈ (ClaudeStream.broadcast 3 [7] streamB).delivered ∧
      (⟨1, [[7]]⟩ : Sink) ∈ (ClaudeStream.broadcast 3 [7] streamB).stream.subscribers) ∧
    2 ∈ (ClaudeStream.broadcast 3 [7] streamB).dropped :=
  ⟨(broadcast_drops_slow_subscriber 3 [7] streamB (by decide) rfl).2.2.1
      ⟨1, []⟩ (by decide) (by decide),
   (broadcast_drops_slow_subscriber 3 [7] streamB (by decide) rfl).2.2.2
      ⟨2, List.replicate 256 [9]⟩ (by decide) (by decide)⟩

/-! ## Theorems: hub `getOrCreate` dedupe (C1) -/

/-- Filtering out another key's bindings does not change a lookup. -/
theorem lookup_filter_ne {β : Type} (k k' : String) (l : List (String × β))
    (h : k ≠ k') :
    (l.filter (fun kv => kv.1 != k')).lookup k = l.lookup k := by
  induction l with
  | nil => rfl
  | cons a t ih =>
    have hkk : (k == k') = false := by simp [h]
    by_cases h1 : a.1 = k'
    · have hk : (k == a.1) = false := by simp [h1, h]
      simp [List.filter_cons, h1, List.lookup, hk, hkk, ih]
    · by_cases h2 : k = a.1 <;>
        simp [List.filter_cons, h1, List.lookup, h2, ih]

/-- Sweeping with `pruneStreamEntry` never changes an entry's key. -/
theorem pruneStreamEntry_key (now : Nat) (e : String × ClaudeStream)
    (y : String × ClaudeStream) (h : pruneStreamEntry now e = some y) :
    y.1 = e.1 := by
  unfold pruneStreamEntry at h
  split at h
  · split at h <;> (cases h; rfl)
  · split at h
    · cases h
    · cases h; rfl

/-- On a running (not-done) stream, `pruneStreamEntry` keeps the entry,
force-cancelling it when it is more than `2 * TTL` past creation. -/
theorem pruneStreamEntry_notDone (now : Nat) (k : String) (s : ClaudeStream)
    (hnd : s.done = false) :
    pruneStreamEntry now (k, s) =
      some (k, if now - s.createdAt > claudeStreamCompletedCacheTTL * 2
               then s.cancelOrphaned else s) := by
  by_cases hr : now - s.createdAt > claudeStreamCompletedCacheTTL * 2 <;>
    simp [pruneStreamEntry, hnd, hr]

/-- A not-done binding survives the prune sweep, with the same key and with
its stream at most force-cancelled. -/
theorem lookup_filterMap_prune (now : Nat) (l : List (String × ClaudeStream))
    (k : String) (s : ClaudeStream) (hs : l.lookup k = some s)
    (hnd : s.done = false) :
    (l.filterMap (pruneStreamEntry now)).lookup k =
      some (if now - s.createdAt > claudeStreamCompletedCacheTTL * 2
            then s.cancelOrphaned else s) := by
  induction l with
  | nil => simp at hs
  | cons a t ih =>
    rcases a with ⟨k1, s1⟩
    by_cases hk : k = k1
    · subst hk
      simp only [List.lookup, beq_self_eq_true] at hs
      cases hs
      simp [List.filterMap_cons, pruneStreamEntry_notDone now k s hnd, List.lookup]
    · have hkb : (k == k1) = false := by simp [hk]
      simp only [List.lookup, hkb] at hs
      rcases hpe : pruneStreamEntry now (k1, s1) with _ | y
      · simp [List.filterMap_cons, hpe, ih hs]
      · have hy : y.1 = k1 := pruneStreamEntry_key now (k1, s1) y hpe
        rcases y with ⟨ky, sy⟩
        simp only at hy
        subst hy
        simp [List.filterMap_cons, hpe, List.lookup, hkb, ih hs]

/-- Method `pruneLocked` does not touch the starter log. -/
theorem pruneLocked_starterCalls (now : Nat) (h : ClaudeStreamHub) :
    (ClaudeStreamHub.pruneLocked now h).starterCalls = h.starterCalls := by
  unfold ClaudeStreamHub.pruneLocked
  split <;> rfl

/-- A not-done stream stays in the table across `pruneLocked`, with its
identity and running status intact. -/
theorem lookup_pruneLocked_notDone (now : Nat) (h : ClaudeStreamHub) (k : String)
    (s : ClaudeStream) (hs : h.streams.lookup k = some s) (hnd : s.done = false) :
    ∃ s', (ClaudeStreamHub.pruneLocked now h).streams.lookup k = some s' ∧
      s'.id = s.id ∧ s'.done = false := by
  unfold ClaudeStreamHub.pruneLocked
  split
  · exact ⟨s, hs, rfl, hnd⟩
  · dsimp only
    refine ⟨_, lookup_filterMap_prune now h.streams k s hs hnd, ?_, ?_⟩
    · split <;> rfl
    · split <;> exact hnd

/-- Method `getOrCreate` on a key whose (not-done) stream is present returns that
very stream — same identity, still running — invokes no starter, and leaves
the stream in the table. -/
theorem getOrCreate_existing (now : Nat) (k : String) (h : ClaudeStreamHub)
    (s : ClaudeStream) (hs : h.streams.lookup k = some s) (hnd : s.done = false) :
    (ClaudeStreamHub.getOrCreate now k h).1.id = s.id ∧
    (ClaudeStreamHub.getOrCreate now k h).1.done = false ∧
    (ClaudeStreamHub.getOrCreate now k h).2.starterCalls = h.starterCalls ∧
    (ClaudeStreamHub.getOrCreate now k h).2.streams.lookup k =
      some (ClaudeStreamHub.getOrCreate now k h).1 := by
  obtain ⟨s', hl, hid, hd⟩ := lookup_pruneLocked_notDone now h k s hs hnd
  unfold ClaudeStreamHub.getOrCreate
  dsimp only
  rw [hl]
  exact ⟨hid, hd, pruneLocked_starterCalls now h, by simp [List.lookup,
    ClaudeStream.touch]⟩

/-- A `getOrCreate` for a *different* key leaves this key's (not-done) stream
in place — same identity, still running — and does not add a starter
invocation for this key. -/
theorem getOrCreate_preserves_other (now : Nat) (k' k : String) (h : ClaudeStreamHub)
    (s : ClaudeStream) (hk : k ≠ k') (hs : h.streams.lookup k = some s)
    (hnd : s.done = false) :
    ∃ s', (ClaudeStreamHub.getOrCreate now k' h).2.streams.lookup k = some s' ∧
      s'.id = s.id ∧ s'.done = false ∧
      (ClaudeStreamHub.getOrCreate now k' h).2.starterCalls.count k =
        h.starterCalls.count k := by
  obtain ⟨s', hl, hid, hd⟩ := lookup_pruneLocked_notDone now h k s hs hnd
  have hkb : (k == k') = false := by simp [hk]
  unfold ClaudeStreamHub.getOrCreate
  dsimp only
  rcases hl' : (ClaudeStreamHub.pruneLocked now h).streams.lookup k' with _ | t
  · dsimp only
    refine ⟨s', ?_, hid, hd, ?_⟩
    · simpa [List.lookup, hkb] using hl
    · have hk2 : (k' == k) = false := by simp [Ne.symm hk]
      simp [pruneLocked_starterCalls now h, List.count_append, List.count_cons, hk2]
  · dsimp only
    refine ⟨s', ?_, hid, hd, ?_⟩
    · rw [List.lookup]
      simp only [hkb]
      rw [lookup_filter_ne k k' _ hk]
      exact hl
    · simp [pruneLocked_starterCalls now h]

/-- Any sequence of further `getOrCreate` calls keeps a (not-done) stream in
the table with its identity, and never adds a starter invocation for its
key. -/
theorem runGetOrCreates_preserves (calls : List (Nat × String)) (h : ClaudeStreamHub)
    (k : String) (s : ClaudeStream) (hs : h.streams.lookup k = some s)
    (hnd : s.done = false) :
    ∃ s', (ClaudeStreamHub.runGetOrCreates calls h).streams.lookup k = some s' ∧
      s'.id = s.id ∧ s'.done = false ∧
      (ClaudeStreamHub.runGetOrCreates calls h).starterCalls.count k =
        h.starterCalls.count k := by
  induction calls generalizing h s with
  | nil => exact ⟨s, hs, rfl, hnd, rfl⟩
  | cons c rest ih =>
    rcases c with ⟨n, k1⟩
    by_cases hk : k = k1
    · subst hk
      obtain ⟨hid, hd, hst, hlk⟩ := getOrCreate_existing n k h s hs hnd
      obtain ⟨s', hl', hid', hd', hc'⟩ :=
        ih (ClaudeStreamHub.getOrCreate n k h).2
          (ClaudeStreamHub.getOrCreate n k h).1 hlk hd
      refine ⟨s', ?_, hid'.trans hid, hd', ?_⟩
      · simpa [ClaudeStreamHub.runGetOrCreates] using hl'
      · calc (ClaudeStreamHub.runGetOrCreates ((n, k) :: rest) h).starterCalls.count k
            = (ClaudeStreamHub.getOrCreate n k h).2.starterCalls.count k := by
              simpa [ClaudeStreamHub.runGetOrCreates] using hc'
          _ = h.starterCalls.count k := by rw [hst]
    · obtain ⟨s', hl', hid', hd', hc'⟩ :=
        getOrCreate_preserves_other n k1 k h s hk hs hnd
      obtain ⟨s'', hl'', hid'', hd'', hc''⟩ :=
        ih (ClaudeStreamHub.getOrCreate n k1 h).2 s' hl' hd'
      refine ⟨s'', ?_, hid''.trans hid', hd'', ?_⟩
      · simpa [ClaudeStreamHub.runGetOrCreates] using hl''
      · calc (ClaudeStreamHub.runGetOrCreates ((n, k1) :: rest) h).starterCalls.count k
            = (ClaudeStreamHub.getOrCreate n k1 h).2.starterCalls.count k := by
              simpa [ClaudeStreamHub.runGetOrCreates] using hc''
          _ = h.starterCalls.count k := hc'

/-- When the key is absent (after the prune sweep), `getOrCreate` constructs
the stream, stores it, and invokes the starter exactly once. -/
theorem getOrCreate_creates (now : Nat) (k : String) (h : ClaudeStreamHub)
    (hnone : (ClaudeStreamHub.pruneLocked now h).streams.lookup k = none) :
    (ClaudeStreamHub.getOrCreate now k h).2.starterCalls =
        h.starterCalls ++ [k] ∧
    (ClaudeStreamHub.getOrCreate now k h).2.streams.lookup k =
      some (ClaudeStreamHub.getOrCreate now k h).1 ∧
    (ClaudeStreamHub.getOrCreate now k h).1.done = false := by
  unfold ClaudeStreamHub.getOrCreate
  dsimp only
  rw [hnone]
  exact ⟨by rw [pruneLocked_starterCalls now h], by simp [List.lookup], rfl⟩

/-- C1. Creating the stream for a key invokes the starter exactly once
(`starterCalls` grows by exactly `[k]`), and every later `getOrCreate` for
that key — serialized by the hub lock, in any interleaving with calls for
other keys, while the stream has not completed — returns the same
`DedupeStream` (same identity) and never invokes the starter again. -/
theorem getOrCreate_dedupe_starter_once (h₀ : ClaudeStreamHub) (k : String)
    (now : Nat) (calls : List (Nat × String))
    (hnone : (ClaudeStreamHub.pruneLocked now h₀).streams.lookup k = none) :
    (ClaudeStreamHub.getOrCreate now k h₀).2.starterCalls =
        h₀.starterCalls ++ [k] ∧
    ∃ s', (ClaudeStreamHub.runGetOrCreates calls
            (ClaudeStreamHub.getOrCreate now k h₀).2).streams.lookup k = some s' ∧
      s'.id = (ClaudeStreamHub.getOrCreate now k h₀).1.id ∧
      s'.done = false ∧
      (ClaudeStreamHub.runGetOrCreates calls
          (ClaudeStreamHub.getOrCreate now k h₀).2).starterCalls.count k =
        h₀.starterCalls.count k + 1 ∧
      ∀ m,
        (ClaudeStreamHub.getOrCreate m k
            (ClaudeStreamHub.runGetOrCreates calls
              (ClaudeStreamHub.getOrCreate now k h₀).2)).1.id =
          (ClaudeStreamHub.getOrCreate now k h₀).1.id ∧
        (ClaudeStreamHub.getOrCreate m k
            (ClaudeStreamHub.runGetOrCreates calls
              (ClaudeStreamHub.getOrCreate now k h₀).2)).2.starterCalls.count k =
          h₀.starterCalls.count k + 1 := by
  obtain ⟨hst, hlk, hd⟩ := getOrCreate_creates now k h₀ hnone
  refine ⟨hst, ?_⟩
  obtain ⟨s', hl', hid', hd', hc'⟩ :=
    runGetOrCreates_preserves calls (ClaudeStreamHub.getOrCreate now k h₀).2 k
      (ClaudeStreamHub.getOrCreate now k h₀).1 hlk hd
  have hcount : (ClaudeStreamHub.runGetOrCreates calls
      (ClaudeStreamHub.getOrCreate now k h₀).2).starterCalls.count k =
        h₀.starterCalls.count k + 1 := by
    rw [hc', hst]
    simp [List.count_append]
  refine ⟨s', hl', hid', hd', hcount, fun m => ?_⟩
  obtain ⟨hid2, _, hst2, _⟩ :=
    getOrCreate_existing m k
      (ClaudeStreamHub.runGetOrCreates calls (ClaudeStreamHub.getOrCreate now k h₀).2)
      s' hl' hd'
  exact ⟨hid2.trans hid', by rw [hst2, hcount]⟩

/-- Witness for C1: starting from the empty hub, creating the stream for
`"k"` logs one starter invocation, and after two further calls (a repeat for
`"k"` and one for another key) the starter count for `"k"` is still 1. -/
theorem getOrCreate_dedupe_starter_once_witness :
    (ClaudeStreamHub.getOrCreate 0 "k" newClaudeStreamHub).2.starterCalls =
        newClaudeStreamHub.starterCalls ++ ["k"] ∧
    (ClaudeStreamHub.runGetOrCreates [(1, "k"), (2, "j")]
        (ClaudeStreamHub.getOrCreate 0 "k" newClaudeStreamHub).2).starterCalls.count
      "k" = newClaudeStreamHub.starterCalls.count "k" + 1 := by
  have h := getOrCreate_dedupe_starter_once newClaudeStreamHub "k" 0
    [(1, "k"), (2, "j")] (by decide)
  obtain ⟨h1, s', _, _, _, h5, _⟩ := h
  exact ⟨h1, h5⟩

/-! ## Theorems: translator tool-use start dedupe (C9, spec-modelled) -/

/-- C9. (spec-modelled) Feeding the identical tool-call-start fragment
twice against the same per-stream translation state yields exactly one
tool-use `content_block_start` across the combined outputs: the first
application of a fresh index emits exactly one start and marks the index
started, and any application to a state where the index is already present
emits none — an index transitions not-started → started at most once no
matter how often the triggering chunk is replayed. -/
theorem toolUseStart_emitted_once (now now' : Nat) (seed : String) (index : Nat)
    (uid name args : String) (st : StreamTranslationState) (tbl tbl' : ToolIDMap)
    (hfresh : st.blocks.lookup index = none) :
    countToolUseStarts (applyToolCallDelta now seed index uid name args st tbl).2.1
        = 1 ∧
    (∃ b, (applyToolCallDelta now seed index uid name args st tbl).1.blocks.lookup
        index = some b ∧ b.started = true) ∧
    (∀ (st' : StreamTranslationState) b', st'.blocks.lookup index = some b' →
      ∀ n2 u2 m2 a2 t2,
        countToolUseStarts
          (applyToolCallDelta n2 seed index u2 m2 a2 st' t2).2.1 = 0) ∧
    countToolUseStarts
      ((applyToolCallDelta now seed index uid name args st tbl).2.1 ++
        (applyToolCallDelta now' seed index uid name args
          (applyToolCallDelta now seed index uid name args st tbl).1 tbl').2.1)
        = 1 := by
  have h1 : countToolUseStarts
      (applyToolCallDelta now seed index uid name args st tbl).2.1 = 1 := by
    by_cases hargs : args = "" <;>
      simp [applyToolCallDelta, hfresh, countToolUseStarts, hargs]
  have h2 : ∃ b, (applyToolCallDelta now seed index uid name args st tbl).1.blocks.lookup
      index = some b ∧ b.started = true := by
    refine ⟨⟨.toolUse, true, false, "", args⟩, ?_, rfl⟩
    simp [applyToolCallDelta, hfresh, List.lookup]
  have h3 : ∀ (st' : StreamTranslationState) b', st'.blocks.lookup index = some b' →
      ∀ n2 u2 m2 a2 t2,
        countToolUseStarts
          (applyToolCallDelta n2 seed index u2 m2 a2 st' t2).2.1 = 0 := by
    intro st' b' hb n2 u2 m2 a2 t2
    by_cases hargs : a2 = "" <;>
      simp [applyToolCallDelta, hb, countToolUseStarts, hargs]
  refine ⟨h1, h2, h3, ?_⟩
  obtain ⟨b, hb, _⟩ := h2
  have happ : ∀ a b : List ClaudeEvent, countToolUseStarts (a ++ b) =
      countToolUseStarts a + countToolUseStarts b := by
    intro a b
    simp [countToolUseStarts, List.filter_append]
  rw [happ, h1, h3 _ b hb now' uid name args tbl']

/-- Witness for C9 at a concrete input mirroring the repository's test: the
same tool-call-start fragment applied twice from the empty translation state
produces exactly one tool-use start. -/
theorem toolUseStart_emitted_once_witness :
    countToolUseStarts
      ((applyToolCallDelta 0 "chat" 0 "call_1" "Edit" "path=.gitignore"
          ⟨[], false⟩ []).2.1 ++
        (applyToolCallDelta 1 "chat" 0 "call_1" "Edit" "path=.gitignore"
          (applyToolCallDelta 0 "chat" 0 "call_1" "Edit" "path=.gitignore"
            ⟨[], false⟩ []).1 []).2.1) = 1 :=
  (toolUseStart_emitted_once 0 1 "chat" 0 "call_1" "Edit" "path=.gitignore"
    ⟨[], false⟩ [] [] rfl).2.2.2
